import Mathlib

/-!
Shallow embedding of the Fusion_track add-in (`src/Fusion_track/Fusion_track.py`):
a single-slot session-segment tracker that records active/idle time per CAD
document and appends finished segments to a CSV log.

Timestamps (`datetime.now()`) are modelled as `Int` seconds since the Unix
epoch; `timedelta` arithmetic and `total_seconds` become `Int` subtraction.
The filesystem is modelled as a map from paths to optional file contents
(a file is a list of CSV rows) together with a per-path writability flag;
a failing `open`/`write` is an `Except.error`, and the `try/except` blocks
of the source become explicit `match`es on that error.
-/

namespace FusionTrack

/-! ## Tunables (module constants of the source) -/

def IDLE_THRESHOLD_SEC : Int := 120

def POLL_INTERVAL_SEC : Int := 2

def MIN_SESSION_SECONDS : Int := 1

/-- `_addon_dir` is `os.path.dirname(__file__)`: environment-dependent at
runtime, modelled as the add-in folder name. -/
def addonDir : String := "Fusion_track"

/-- `_sessions_path`: `os.path.join(_addon_dir(), "sessions.csv")`. -/
def sessionsPath : String := addonDir ++ "/sessions.csv"

def SESSIONS_HEADER : List String :=
  ["project_name", "document_name", "status", "start_time", "end_time",
   "duration_seconds", "duration_hms"]

/-! ## Status -/

inductive Status where
  | active
  | idle
deriving DecidableEq, Repr

def statusStr : Status → String
  | .active => "active"
  | .idle => "idle"

/-! ## Time formatting

`TIME_FMT = "%m/%d/%Y %H:%M"`. We convert epoch seconds to a civil
date with the standard Gregorian conversion and format each component
zero-padded, exactly the shape `strftime` produces for this format. -/

def pad2 (n : Nat) : String :=
  if n < 10 then "0" ++ toString n else toString n

def pad4Nat (n : Nat) : String :=
  if n < 10 then "000" ++ toString n
  else if n < 100 then "00" ++ toString n
  else if n < 1000 then "0" ++ toString n
  else toString n

def pad4 (y : Int) : String :=
  if y < 0 then "-" ++ pad4Nat (-y).toNat else pad4Nat y.toNat

/-- Days since 1970-01-01 to (year, month, day), proleptic Gregorian. -/
def civilFromDays (z0 : Int) : Int × Int × Int :=
  let z := z0 + 719468
  let era := z.ediv 146097
  let doe := z - era * 146097
  let yoe := (doe - doe.ediv 1460 + doe.ediv 36524 - doe.ediv 146096).ediv 365
  let y := yoe + era * 400
  let doy := doe - (365 * yoe + yoe.ediv 4 - yoe.ediv 100)
  let mp := (5 * doy + 2).ediv 153
  let d := doy - (153 * mp + 2).ediv 5 + 1
  let m := mp + (if mp < 10 then 3 else -9)
  (if m ≤ 2 then y + 1 else y, m, d)

/-- `strftime(TIME_FMT)` on an epoch-seconds timestamp: `MM/DD/YYYY HH:MM`. -/
def fmtTime (t : Int) : String :=
  let days := t.ediv 86400
  let rem := t.emod 86400
  let c := civilFromDays days
  let h := rem.ediv 3600
  let mi := (rem.emod 3600).ediv 60
  pad2 c.2.1.toNat ++ "/" ++ pad2 c.2.2.toNat ++ "/" ++ pad4 c.1 ++ " " ++
    pad2 h.toNat ++ ":" ++ pad2 mi.toNat

/-- `_hms`: `h:mm:ss` with unpadded hours, clamping negatives to 0. -/
def hms (seconds : Int) : String :=
  let s := (max 0 seconds).toNat
  let h := s / 3600
  let m := (s % 3600) / 60
  let sec := s % 60
  toString h ++ ":" ++ pad2 m ++ ":" ++ pad2 sec

/-! ## Document identity (`_doc_key_and_names`) -/

structure DataProject where
  name : Option String
deriving DecidableEq, Repr

structure DataFile where
  project : Option DataProject
  id : Option String
  versionId : Option String
deriving DecidableEq, Repr

structure Doc where
  name : Option String
  dataFile : Option DataFile
deriving DecidableEq, Repr

/-- Python `a or b` on strings: first operand unless it is falsy (empty). -/
def truthyOr (a b : String) : String :=
  if a = "" then b else a

/-- `_doc_key_and_names(doc)`: derived key (cloud id / versionId if present,
else `"proj|name"`), plus the `(project, document)` display pair.
`None` attributes and empty strings fall back to the defaults
`("Unsaved", "Unknown", "None")` exactly as the Python truthiness tests do. -/
def docKeyAndNames (doc : Option Doc) : String × (String × String) :=
  match doc with
  | none => ("None", ("Unsaved", "Unknown"))
  | some d =>
    let name := truthyOr ((d.name).getD "") "Unknown"
    let proj :=
      match d.dataFile with
      | some df =>
        match df.project with
        | some p => truthyOr ((p.name).getD "") "Unsaved"
        | none => "Unsaved"
      | none => "Unsaved"
    let urn :=
      match d.dataFile with
      | some df => truthyOr ((df.id).getD "") ((df.versionId).getD "")
      | none => ""
    let key := if urn = "" then proj ++ "|" ++ name else urn
    (key, (proj, name))

/-! ## Segments and tracker state -/

/-- A closed time segment: one status label for one document,
from `startT` to `endT` (epoch seconds). -/
structure Segment where
  names : String × String
  status : Status
  startT : Int
  endT : Int
deriving DecidableEq, Repr

/-- The module-level globals `_active_doc_key`, `_active_names`,
`_curr_status`, `_seg_start_dt`. -/
structure TrackerState where
  activeDocKey : Option String
  activeNames : String × String
  currStatus : Status
  segStart : Option Int
deriving DecidableEq, Repr

/-- Initial values of the globals. -/
def initState : TrackerState :=
  { activeDocKey := none
    activeNames := ("Unsaved", "Unknown")
    currStatus := .active
    segStart := none }

/-- Python truthiness of `_active_doc_key`: `None` and `""` are falsy. -/
def keyTruthy : Option String → Bool
  | none => false
  | some s => s ≠ ""

/-! ## Session-control operations.

Each returns the new tracker state plus the list of segments handed to
`_write_segment_row` (the "emitted" segments), in order. -/

/-- `_switch_to(doc, reason)`: end the current segment (if any), then begin
a new ACTIVE segment for the new document starting now. -/
def switchTo (st : TrackerState) (doc : Option Doc) (now : Int) :
    TrackerState × List Segment :=
  let emitted :=
    match st.activeDocKey, st.segStart with
    | some k, some v =>
      if k ≠ "" then [Segment.mk st.activeNames st.currStatus v now] else []
    | _, _ => []
  let kn := docKeyAndNames doc
  ({ activeDocKey := some kn.1
     activeNames := kn.2
     currStatus := .active
     segStart := some now }, emitted)

/-- `_stop_current(reason)`: end the current segment and clear the key and
segment start (names and status are left as they were). -/
def stopCurrent (st : TrackerState) (now : Int) :
    TrackerState × List Segment :=
  match st.activeDocKey, st.segStart with
  | some k, some v =>
    if k ≠ "" then
      ({ st with activeDocKey := none, segStart := none },
       [Segment.mk st.activeNames st.currStatus v now])
    else (st, [])
  | _, _ => (st, [])

/-- `_to_idle(idle_start_dt)`: ACTIVE → IDLE at the precise idle start;
no-op when already idle. -/
def toIdle (st : TrackerState) (idleStart : Int) :
    TrackerState × List Segment :=
  if st.currStatus = .idle then (st, [])
  else
    let emitted :=
      match st.activeDocKey, st.segStart with
      | some k, some v =>
        if k ≠ "" then [Segment.mk st.activeNames .active v idleStart] else []
      | _, _ => []
    ({ st with currStatus := .idle, segStart := some idleStart }, emitted)

/-- `_from_idle_to_active(resume_dt)`: IDLE → ACTIVE at resume time;
no-op when already active. -/
def fromIdleToActive (st : TrackerState) (resume : Int) :
    TrackerState × List Segment :=
  if st.currStatus = .active then (st, [])
  else
    let emitted :=
      match st.activeDocKey, st.segStart with
      | some k, some v =>
        if k ≠ "" then [Segment.mk st.activeNames .idle v resume] else []
      | _, _ => []
    ({ st with currStatus := .active, segStart := some resume }, emitted)

/-- The `"tick"` branch of `HtmlIncomingHandler.notify`: return unless a
document is tracked and a segment is open; classify against the idle
threshold; clamp the idle start to the current segment start. -/
def notifyTick (st : TrackerState) (idleSec now : Int) :
    TrackerState × List Segment :=
  match st.activeDocKey, st.segStart with
  | some k, some v =>
    if k = "" then (st, [])
    else if IDLE_THRESHOLD_SEC ≤ idleSec then
      toIdle st (max (now - idleSec) v)
    else
      fromIdleToActive st now
  | _, _ => (st, [])

/-- The `"DocumentClosed"` branch of `DocEventHandler.notify`: stop only
when the closed document's derived key equals the tracked key. -/
def notifyClosed (st : TrackerState) (doc : Option Doc) (now : Int) :
    TrackerState × List Segment :=
  let kc := (docKeyAndNames doc).1
  match st.activeDocKey with
  | some k => if k ≠ "" ∧ kc = k then stopCurrent st now else (st, [])
  | none => (st, [])

/-! ## Events and the step function -/

inductive Event where
  | activated (doc : Option Doc) (t : Int)
  | tick (idleSec : Int) (t : Int)
  | closed (doc : Option Doc) (t : Int)
  | stopAddin (t : Int)
deriving DecidableEq, Repr

def eTime : Event → Int
  | .activated _ t => t
  | .tick _ t => t
  | .closed _ t => t
  | .stopAddin t => t

/-- One serialized host callback. -/
def step (st : TrackerState) (e : Event) : TrackerState × List Segment :=
  match e with
  | .activated d t => switchTo st d t
  | .tick i t => notifyTick st i t
  | .closed d t => notifyClosed st d t
  | .stopAddin t => stopCurrent st t

/-- Fold `step` over a list of events, collecting emitted segments in order. -/
def runSteps : TrackerState → List Event → TrackerState × List Segment
  | st, [] => (st, [])
  | st, e :: es =>
    ((runSteps (step st e).1 es).1,
     (step st e).2 ++ (runSteps (step st e).1 es).2)

/-! ## CSV log layer (`_ensure_csv`, `_write_segment_row`)

The filesystem maps each path to `none` (absent) or the file's rows; a
per-path flag says whether creating/appending at that path succeeds.
Everything printed to the palette (`_append_ui`) is an `Output.diag`. -/

inductive Output where
  | diag (msg : String)
deriving DecidableEq, Repr

structure FileSys where
  writable : String → Bool
  files : String → Option (List (List String))

def setFile (f : String → Option (List (List String))) (p : String)
    (v : Option (List (List String))) : String → Option (List (List String)) :=
  fun q => if q = p then v else f q

def csvCreatedMsg : String :=
  "[TimeSessions] Created CSV: " ++ sessionsPath

def csvCreateFailMsg : String :=
  "[TimeSessions] Failed to create CSV:"

def writeErrMsg (exc : String) : String :=
  "[TimeSessions] Error writing CSV: " ++ exc

def droppedMsg (names : String × String) (status : Status) (dur : Int) : String :=
  "[TimeSessions] (dropped short " ++ statusStr status ++ ") " ++
    names.1 ++ " / " ++ names.2 ++ " | " ++ hms dur

def savedMsg (names : String × String) (status : Status) (dur : Int) : String :=
  "[TimeSessions] Saved " ++ statusStr status ++ " | " ++
    names.1 ++ " / " ++ names.2 ++ " | " ++ hms dur

/-- `_ensure_csv(path, header)`: create the directory and the file with its
header row when absent; its own `try/except` turns any failure into a
diagnostic, so it never raises. -/
def ensureCsv (fs : FileSys) (path : String) (header : List String) :
    FileSys × List Output :=
  if fs.writable path then
    match fs.files path with
    | none =>
      ({ fs with files := setFile fs.files path (some [header]) },
       [Output.diag csvCreatedMsg])
    | some _ => (fs, [])
  else (fs, [Output.diag csvCreateFailMsg])

/-- `open(path, "a")` + `writerow` + `flush`: appends one row, or raises. -/
def appendRow (fs : FileSys) (path : String) (row : List String) :
    Except String FileSys :=
  if fs.writable path then
    .ok { fs with
          files := setFile fs.files path
            (some (((fs.files path).getD []) ++ [row])) }
  else .error "OSError"

/-- The row `_write_segment_row` hands to `csv.writer`. -/
def rowOf (names : String × String) (status : Status)
    (startDt endDt dur : Int) : List String :=
  [names.1, names.2, statusStr status, fmtTime startDt, fmtTime endDt,
   toString dur, hms dur]

/-- `_write_segment_row(names, status, start_dt, end_dt)`: drop segments
shorter than `MIN_SESSION_SECONDS`; otherwise ensure the CSV exists and
append one row, catching any write failure as a diagnostic. -/
def writeSegmentRow (fs : FileSys) (names : String × String) (status : Status)
    (startDt endDt : Int) : FileSys × List Output :=
  let dur := endDt - startDt
  if dur < MIN_SESSION_SECONDS then
    (fs, [Output.diag (droppedMsg names status dur)])
  else
    let e1 := ensureCsv fs sessionsPath SESSIONS_HEADER
    match appendRow e1.1 sessionsPath (rowOf names status startDt endDt dur) with
    | .ok fs2 => (fs2, e1.2 ++ [Output.diag (savedMsg names status dur)])
    | .error exc => (e1.1, e1.2 ++ [Output.diag (writeErrMsg exc)])

/-- Process the emitted segments of one event through `_write_segment_row`. -/
def processSegments : FileSys → List Segment → FileSys × List Output
  | fs, [] => (fs, [])
  | fs, s :: rest =>
    let r1 := writeSegmentRow fs s.names s.status s.startT s.endT
    let r2 := processSegments r1.1 rest
    (r2.1, r1.2 ++ r2.2)

/-- One event including its log writes. -/
def stepFull (fs : FileSys) (st : TrackerState) (e : Event) :
    FileSys × TrackerState × List Output :=
  let r := step st e
  let w := processSegments fs r.2
  (w.1, r.1, w.2)

/-! ## Timeline invariants

`SegsWF` / `SegsSorted` say the emitted segments are well-formed intervals
laid out in chronological order without overlap; `StateInv` relates the open
segment (if any) and the current clock to everything emitted so far. -/

def SegsWF (l : List Segment) : Prop := ∀ s ∈ l, s.startT ≤ s.endT

def SegsSorted (l : List Segment) : Prop :=
  List.Chain' (fun a b => a.endT ≤ b.startT) l

def LastEndLE (l : List Segment) (x : Int) : Prop :=
  ∀ s, l.getLast? = some s → s.endT ≤ x

def StateInv (st : TrackerState) (l : List Segment) (t : Int) : Prop :=
  LastEndLE l t ∧ ∀ v, st.segStart = some v → LastEndLE l v ∧ v ≤ t

lemma lastEndLE_mono {l : List Segment} {x y : Int}
    (h : LastEndLE l x) (hxy : x ≤ y) : LastEndLE l y :=
  fun s hs => le_trans (h s hs) hxy

lemma lastEndLE_concat (l : List Segment) {s : Segment} {x : Int}
    (h : s.endT ≤ x) : LastEndLE (l ++ [s]) x := by
  intro u hu
  rw [List.getLast?_concat] at hu
  cases hu
  exact h

lemma segsWF_concat {l : List Segment} {s : Segment}
    (hwf : SegsWF l) (hse : s.startT ≤ s.endT) : SegsWF (l ++ [s]) := by
  intro u hu
  rcases List.mem_append.mp hu with h | h
  · exact hwf u h
  · rcases List.mem_singleton.mp h with rfl
    exact hse

lemma segsSorted_concat {l : List Segment} {s : Segment}
    (hsort : SegsSorted l) (hlast : LastEndLE l s.startT) :
    SegsSorted (l ++ [s]) := by
  rw [SegsSorted, List.chain'_append]
  refine ⟨hsort, List.chain'_singleton s, ?_⟩
  intro x hx y hy
  simp only [List.head?_cons, Option.mem_def, Option.some.injEq] at hy
  subst hy
  exact hlast x hx

lemma stateInv_mono {st : TrackerState} {l : List Segment} {t u : Int}
    (h : StateInv st l t) (htu : t ≤ u) : StateInv st l u :=
  ⟨lastEndLE_mono h.1 htu,
   fun v hv => ⟨(h.2 v hv).1, le_trans (h.2 v hv).2 htu⟩⟩

/-- Appending one well-placed segment keeps the timeline laid out in order. -/
lemma emit_extends {l : List Segment} {v e : Int}
    (names : String × String) (status : Status)
    (hwf : SegsWF l) (hsort : SegsSorted l)
    (hlast : LastEndLE l v) (hve : v ≤ e) :
    SegsWF (l ++ [Segment.mk names status v e]) ∧
    SegsSorted (l ++ [Segment.mk names status v e]) ∧
    LastEndLE (l ++ [Segment.mk names status v e]) e :=
  ⟨segsWF_concat hwf hve, segsSorted_concat hsort hlast,
   lastEndLE_concat l le_rfl⟩

lemma switchTo_inv (st : TrackerState) (d : Option Doc) (now : Int)
    (l : List Segment) (t : Int) (hwf : SegsWF l) (hsort : SegsSorted l)
    (hinv : StateInv st l t) (ht : t ≤ now) :
    SegsWF (l ++ (switchTo st d now).2) ∧
    SegsSorted (l ++ (switchTo st d now).2) ∧
    StateInv (switchTo st d now).1 (l ++ (switchTo st d now).2) now := by
  obtain ⟨hl, hs⟩ := hinv
  have hlnow : LastEndLE l now := lastEndLE_mono hl ht
  rcases hdk : st.activeDocKey with _ | k <;>
    rcases hss : st.segStart with _ | v
  case none.none | none.some | some.none =>
    simp only [switchTo, hdk, hss, List.append_nil]
    exact ⟨hwf, hsort, hlnow, fun w hw => by
      obtain rfl : now = w := Option.some.inj hw
      exact ⟨hlnow, le_rfl⟩⟩
  case some.some =>
    obtain ⟨hlv, hvt⟩ := hs v hss
    by_cases hk : k = ""
    · simp only [switchTo, hdk, hss, hk, ne_eq, not_true_eq_false, if_false,
        List.append_nil]
      exact ⟨hwf, hsort, hlnow, fun w hw => by
        obtain rfl : now = w := Option.some.inj hw
        exact ⟨hlnow, le_rfl⟩⟩
    · simp only [switchTo, hdk, hss, hk, ne_eq, not_false_eq_true, if_true]
      obtain ⟨hwf2, hsort2, hle2⟩ :=
        emit_extends st.activeNames st.currStatus hwf hsort hlv
          (le_trans hvt ht)
      exact ⟨hwf2, hsort2, hle2, fun w hw => by
        obtain rfl : now = w := Option.some.inj hw
        exact ⟨hle2, le_rfl⟩⟩

lemma stopCurrent_inv (st : TrackerState) (now : Int)
    (l : List Segment) (t : Int) (hwf : SegsWF l) (hsort : SegsSorted l)
    (hinv : StateInv st l t) (ht : t ≤ now) :
    SegsWF (l ++ (stopCurrent st now).2) ∧
    SegsSorted (l ++ (stopCurrent st now).2) ∧
    StateInv (stopCurrent st now).1 (l ++ (stopCurrent st now).2) now := by
  obtain ⟨hl, hs⟩ := hinv
  have hmono : StateInv st l now := stateInv_mono ⟨hl, hs⟩ ht
  rcases hdk : st.activeDocKey with _ | k <;>
    rcases hss : st.segStart with _ | v
  case none.none | none.some | some.none =>
    simp only [stopCurrent, hdk, hss, List.append_nil]
    exact ⟨hwf, hsort, hmono⟩
  case some.some =>
    obtain ⟨hlv, hvt⟩ := hs v hss
    by_cases hk : k = ""
    · simp only [stopCurrent, hdk, hss, hk, ne_eq, not_true_eq_false, if_false,
        List.append_nil]
      exact ⟨hwf, hsort, hmono⟩
    · simp only [stopCurrent, hdk, hss, hk, ne_eq, not_false_eq_true, if_true]
      obtain ⟨hwf2, hsort2, hle2⟩ :=
        emit_extends st.activeNames st.currStatus hwf hsort hlv
          (le_trans hvt ht)
      exact ⟨hwf2, hsort2, lastEndLE_mono hle2 le_rfl, fun w hw => by
        simp at hw⟩

lemma notifyTick_inv (st : TrackerState) (i now : Int)
    (l : List Segment) (t : Int) (hwf : SegsWF l) (hsort : SegsSorted l)
    (hinv : StateInv st l t) (ht : t ≤ now) :
    SegsWF (l ++ (notifyTick st i now).2) ∧
    SegsSorted (l ++ (notifyTick st i now).2) ∧
    StateInv (notifyTick st i now).1 (l ++ (notifyTick st i now).2) now := by
  obtain ⟨hl, hs⟩ := hinv
  have hmono : StateInv st l now := stateInv_mono ⟨hl, hs⟩ ht
  rcases hdk : st.activeDocKey with _ | k <;>
    rcases hss : st.segStart with _ | v
  case none.none | none.some | some.none =>
    simp only [notifyTick, hdk, hss, List.append_nil]
    exact ⟨hwf, hsort, hmono⟩
  case some.some =>
    obtain ⟨hlv, hvt⟩ := hs v hss
    have hvnow : v ≤ now := le_trans hvt ht
    by_cases hk : k = ""
    · simp only [notifyTick, hdk, hss, hk, if_true, List.append_nil]
      exact ⟨hwf, hsort, hmono⟩
    · by_cases hi : IDLE_THRESHOLD_SEC ≤ i
      · -- heartbeat classifies as idle
        have h0i : (0 : Int) ≤ i := by
          have h120 : (120 : Int) ≤ i := hi
          linarith
        have hmnow : max (now - i) v ≤ now :=
          max_le (sub_le_self now h0i) hvnow
        have hvm : v ≤ max (now - i) v := le_max_right _ _
        simp only [notifyTick, hdk, hss, hk, if_false, hi, if_true]
        rcases hcs : st.currStatus with _ | _
        · -- currently active: close the active segment at the clamped idle start
          simp only [toIdle, hcs, reduceCtorEq, if_false, hdk, hss, hk, ne_eq,
            not_false_eq_true, if_true]
          obtain ⟨hwf2, hsort2, hle2⟩ :=
            emit_extends st.activeNames .active hwf hsort hlv hvm
          exact ⟨hwf2, hsort2, lastEndLE_mono hle2 hmnow, fun w hw => by
            obtain rfl : max (now - i) v = w := Option.some.inj hw
            exact ⟨hle2, hmnow⟩⟩
        · -- already idle: no-op
          simp only [toIdle, hcs, if_true, List.append_nil]
          exact ⟨hwf, hsort, hmono⟩
      · -- heartbeat classifies as active
        simp only [notifyTick, hdk, hss, hk, if_false, hi]
        rcases hcs : st.currStatus with _ | _
        · -- already active: no-op
          simp only [fromIdleToActive, hcs, if_true, List.append_nil]
          exact ⟨hwf, hsort, hmono⟩
        · -- currently idle: close the idle segment now
          simp only [fromIdleToActive, hcs, reduceCtorEq, if_false, hdk, hss,
            hk, ne_eq, not_false_eq_true, if_true]
          obtain ⟨hwf2, hsort2, hle2⟩ :=
            emit_extends st.activeNames .idle hwf hsort hlv hvnow
          exact ⟨hwf2, hsort2, hle2, fun w hw => by
            obtain rfl : now = w := Option.some.inj hw
            exact ⟨hle2, le_rfl⟩⟩

lemma notifyClosed_inv (st : TrackerState) (d : Option Doc) (now : Int)
    (l : List Segment) (t : Int) (hwf : SegsWF l) (hsort : SegsSorted l)
    (hinv : StateInv st l t) (ht : t ≤ now) :
    SegsWF (l ++ (notifyClosed st d now).2) ∧
    SegsSorted (l ++ (notifyClosed st d now).2) ∧
    StateInv (notifyClosed st d now).1 (l ++ (notifyClosed st d now).2) now := by
  have hmono : StateInv st l now := stateInv_mono hinv ht
  rcases hdk : st.activeDocKey with _ | k
  · simp only [notifyClosed, hdk, List.append_nil]
    exact ⟨hwf, hsort, hmono⟩
  · by_cases hc : k ≠ "" ∧ (docKeyAndNames d).1 = k
    · simp only [notifyClosed, hdk]
      rw [if_pos hc]
      exact stopCurrent_inv st now l t hwf hsort hinv ht
    · simp only [notifyClosed, hdk]
      rw [if_neg hc]
      simp only [List.append_nil]
      exact ⟨hwf, hsort, hmono⟩

lemma step_inv (st : TrackerState) (e : Event)
    (l : List Segment) (t : Int) (hwf : SegsWF l) (hsort : SegsSorted l)
    (hinv : StateInv st l t) (ht : t ≤ eTime e) :
    SegsWF (l ++ (step st e).2) ∧ SegsSorted (l ++ (step st e).2) ∧
    StateInv (step st e).1 (l ++ (step st e).2) (eTime e) := by
  cases e with
  | activated d t2 => exact switchTo_inv st d t2 l t hwf hsort hinv ht
  | tick i t2 => exact notifyTick_inv st i t2 l t hwf hsort hinv ht
  | closed d t2 => exact notifyClosed_inv st d t2 l t hwf hsort hinv ht
  | stopAddin t2 => exact stopCurrent_inv st t2 l t hwf hsort hinv ht

lemma runSteps_inv : ∀ (es : List Event) (st : TrackerState)
    (l : List Segment) (t : Int),
    SegsWF l → SegsSorted l → StateInv st l t →
    List.Chain' (fun a b => eTime a ≤ eTime b) es →
    (∀ e, es.head? = some e → t ≤ eTime e) →
    SegsWF (l ++ (runSteps st es).2) ∧ SegsSorted (l ++ (runSteps st es).2)
  | [], _, l, _, hwf, hsort, _, _, _ => by
    simpa [runSteps] using ⟨hwf, hsort⟩
  | e :: es, st, l, t, hwf, hsort, hinv, hch, hhd => by
    have ht : t ≤ eTime e := hhd e rfl
    obtain ⟨hwf1, hsort1, hinv1⟩ := step_inv st e l t hwf hsort hinv ht
    have hch1 := (List.chain'_cons'.mp hch).2
    have hhd1 : ∀ e2, es.head? = some e2 → eTime e ≤ eTime e2 :=
      fun e2 h2 => (List.chain'_cons'.mp hch).1 e2 h2
    have hrec := runSteps_inv es (step st e).1 (l ++ (step st e).2) (eTime e)
      hwf1 hsort1 hinv1 hch1 hhd1
    simpa [runSteps, List.append_assoc] using hrec

/-- C1: for every sequence of switch/heartbeat/stop calls with non-decreasing
timestamps, the emitted segments lie in chronological order without overlap
(each segment ends no later than the next begins, and no earlier than it
starts), and whenever an event emits a segment while leaving a segment open,
the newly opened segment starts exactly at the emitted segment's end — the
tracked timeline is partitioned into contiguous, non-overlapping intervals. -/
theorem segments_partition :
    (∀ es : List Event,
      List.Chain' (fun a b => eTime a ≤ eTime b) es →
      SegsWF (runSteps initState es).2 ∧ SegsSorted (runSteps initState es).2) ∧
    (∀ (st : TrackerState) (e : Event) (s : Segment),
      s ∈ (step st e).2 → ∀ v, (step st e).1.segStart = some v →
      s.endT = v) := by
  constructor
  · intro es hch
    cases es with
    | nil =>
      exact ⟨fun s hs => by simp [runSteps] at hs,
        by simp [runSteps, SegsSorted]⟩
    | cons e es =>
      have h0 : StateInv initState [] (eTime e) :=
        ⟨fun s hs => by simp at hs, fun v hv => by simp [initState] at hv⟩
      have h := runSteps_inv (e :: es) initState [] (eTime e)
        (fun s hs => by simp at hs) (by simp [SegsSorted]) h0 hch
        (fun e2 h2 => by
          simp only [List.head?_cons, Option.some.injEq] at h2
          subst h2
          exact le_rfl)
      simpa using h
  · intro st e s hs v hv
    cases e with
    | activated d t =>
      rcases hdk : st.activeDocKey with _ | k <;>
        rcases hss : st.segStart with _ | w <;>
        simp only [step, switchTo, hdk, hss] at hs hv
      case none.none | none.some | some.none =>
        simp at hs
      case some.some =>
        by_cases hk : k = ""
        · simp [hk] at hs
        · simp only [hk, ne_eq, not_false_eq_true, if_true,
            List.mem_singleton] at hs
          subst hs
          exact Option.some.inj hv
    | tick i t =>
      rcases hdk : st.activeDocKey with _ | k <;>
        rcases hss : st.segStart with _ | w <;>
        simp only [step, notifyTick, hdk, hss] at hs hv
      case none.none | none.some | some.none =>
        simp at hs
      case some.some =>
        by_cases hk : k = ""
        · simp [hk] at hs
        · simp only [hk, if_false] at hs hv
          by_cases hi : IDLE_THRESHOLD_SEC ≤ i <;>
            simp only [hi, if_true, if_false] at hs hv
          · rcases hcs : st.currStatus with _ | _ <;>
              simp only [toIdle, hcs, reduceCtorEq, if_false, if_true, hdk,
                hss, hk, ne_eq, not_false_eq_true, List.mem_singleton] at hs hv
            · subst hs
              exact Option.some.inj hv
            · simp at hs
          · rcases hcs : st.currStatus with _ | _ <;>
              simp only [fromIdleToActive, hcs, reduceCtorEq, if_false,
                if_true, hdk, hss, hk, ne_eq, not_false_eq_true,
                List.mem_singleton] at hs hv
            · simp at hs
            · subst hs
              exact Option.some.inj hv
    | closed d t =>
      rcases hdk : st.activeDocKey with _ | k <;>
        simp only [step, notifyClosed, hdk] at hs hv
      · simp at hs
      · by_cases hc : k ≠ "" ∧ (docKeyAndNames d).1 = k
        · rw [if_pos hc] at hs hv
          rcases hss : st.segStart with _ | w <;>
            simp only [stopCurrent, hdk, hss] at hs hv
          · simp at hs
          · rcases hc with ⟨hk, _⟩
            simp only [hk, ne_eq, not_false_eq_true, if_true] at hs hv
            simp at hv
        · rw [if_neg hc] at hs hv
          simp at hs
    | stopAddin t =>
      rcases hdk : st.activeDocKey with _ | k <;>
        rcases hss : st.segStart with _ | w <;>
        simp only [step, stopCurrent, hdk, hss] at hs hv
      case none.none | none.some | some.none =>
        simp at hs
      case some.some =>
        by_cases hk : k = ""
        · simp [hk] at hs
        · simp only [hk, ne_eq, not_false_eq_true, if_true] at hs hv
          simp at hv

/-- A sample document: unsaved, named `docA`. -/
def docA : Option Doc := some ⟨some "docA", none⟩

/-- A sample event sequence with non-decreasing timestamps. -/
def sampleEvents : List Event :=
  [.activated docA 0, .tick 130 150, .tick 10 200, .stopAddin 240]

theorem segments_partition_witness :
    SegsWF (runSteps initState sampleEvents).2 ∧
    SegsSorted (runSteps initState sampleEvents).2 :=
  segments_partition.1 sampleEvents
    (by simp [sampleEvents, List.chain'_cons, eTime])

/-- C2: with an open segment, a heartbeat at time `t` reporting `i` idle
seconds closes the active segment at the clamped idle start
`max (t - i) v` and opens an idle segment there when `i` reaches the
threshold; when `i` is below the threshold and the status is idle it closes
the idle segment at `t` and opens an active one at `t`; and it is a no-op
(state unchanged, nothing emitted) when the status already matches. -/
theorem heartbeat_transitions (st : TrackerState) (i t : Int) (k : String)
    (v : Int) (hk : st.activeDocKey = some k) (hk0 : k ≠ "")
    (hv : st.segStart = some v) :
    (IDLE_THRESHOLD_SEC ≤ i → st.currStatus = .active →
      step st (.tick i t) =
        ({ st with currStatus := .idle, segStart := some (max (t - i) v) },
         [Segment.mk st.activeNames .active v (max (t - i) v)])) ∧
    (IDLE_THRESHOLD_SEC ≤ i → st.currStatus = .idle →
      step st (.tick i t) = (st, [])) ∧
    (i < IDLE_THRESHOLD_SEC → st.currStatus = .idle →
      step st (.tick i t) =
        ({ st with currStatus := .active, segStart := some t },
         [Segment.mk st.activeNames .idle v t])) ∧
    (i < IDLE_THRESHOLD_SEC → st.currStatus = .active →
      step st (.tick i t) = (st, [])) := by
  refine ⟨?_, ?_, ?_, ?_⟩ <;> intro h1 h2
  · simp [step, notifyTick, hk, hv, hk0, h1, toIdle, h2]
  · simp [step, notifyTick, hk, hv, hk0, h1, toIdle, h2]
  · simp [step, notifyTick, hk, hv, hk0, not_le.mpr h1, fromIdleToActive, h2]
  · simp [step, notifyTick, hk, hv, hk0, not_le.mpr h1, fromIdleToActive, h2]

def wStateA : TrackerState :=
  { activeDocKey := some "K"
    activeNames := ("P", "D")
    currStatus := .active
    segStart := some 10 }

theorem heartbeat_transitions_witness :
    step wStateA (.tick 130 150) =
      ({ wStateA with currStatus := .idle, segStart := some (max (150 - 130) 10) },
       [Segment.mk wStateA.activeNames .active 10 (max (150 - 130) 10)]) :=
  (heartbeat_transitions wStateA 130 150 "K" 10 rfl (by decide) rfl).1
    (by decide) rfl

/-- C3: a heartbeat that triggers the active-to-idle transition closes the
segment and reopens at `max (t - i) v`, which is never earlier than the
start `v` of the segment that was open when the heartbeat arrived. -/
theorem idle_start_clamped (st : TrackerState) (i t : Int) (k : String)
    (v : Int) (hk : st.activeDocKey = some k) (hk0 : k ≠ "")
    (hv : st.segStart = some v) (hi : IDLE_THRESHOLD_SEC ≤ i)
    (ha : st.currStatus = .active) :
    (step st (.tick i t)).2 =
      [Segment.mk st.activeNames .active v (max (t - i) v)] ∧
    (step st (.tick i t)).1.segStart = some (max (t - i) v) ∧
    v ≤ max (t - i) v := by
  refine ⟨?_, ?_, le_max_right _ _⟩ <;>
    simp [step, notifyTick, hk, hv, hk0, hi, toIdle, ha]

theorem idle_start_clamped_witness :
    (step wStateA (.tick 130 150)).2 =
      [Segment.mk wStateA.activeNames .active 10 (max (150 - 130) 10)] ∧
    (step wStateA (.tick 130 150)).1.segStart =
      some (max (150 - 130) 10) ∧
    (10 : Int) ≤ max (150 - 130) 10 :=
  idle_start_clamped wStateA 130 150 "K" 10 rfl (by decide) rfl (by decide)
    rfl

def fsEmpty : FileSys :=
  { writable := fun _ => true, files := fun _ => none }

/-- C6: `stop` closes the currently open segment at the current timestamp and
clears the document key and segment start, so no segment remains open; with
no open segment it is a complete no-op that emits nothing and produces no
log output. -/
theorem stop_behavior (st : TrackerState) (t : Int) (fs : FileSys) :
    (∀ k v, st.activeDocKey = some k → k ≠ "" → st.segStart = some v →
      step st (.stopAddin t) =
        ({ st with activeDocKey := none, segStart := none },
         [Segment.mk st.activeNames st.currStatus v t])) ∧
    (keyTruthy st.activeDocKey = false ∨ st.segStart = none →
      step st (.stopAddin t) = (st, []) ∧
      stepFull fs st (.stopAddin t) = (fs, st, [])) := by
  constructor
  · intro k v hk hk0 hv
    simp [step, stopCurrent, hk, hv, hk0]
  · intro h
    have hstep : step st (.stopAddin t) = (st, []) := by
      rcases h with h | h
      · rcases hdk : st.activeDocKey with _ | k
        · rcases hss : st.segStart with _ | v <;>
            simp [step, stopCurrent, hdk, hss]
        · have hkz : k = "" := by
            simpa [keyTruthy, hdk] using h
          rcases hss : st.segStart with _ | v <;>
            simp [step, stopCurrent, hdk, hss, hkz]
      · rcases hdk : st.activeDocKey with _ | k <;>
          simp [step, stopCurrent, hdk, h]
    exact ⟨hstep, by simp [stepFull, hstep, processSegments]⟩

theorem stop_behavior_witness :
    step initState (.stopAddin 5) = (initState, []) ∧
    stepFull fsEmpty initState (.stopAddin 5) = (fsEmpty, initState, []) :=
  (stop_behavior initState 5 fsEmpty).2 (Or.inl rfl)

/-- C9: when no document key is tracked or no segment start is set, a
heartbeat is a complete no-op: nothing is emitted, nothing is written, and
the tracker state is unchanged. -/
theorem heartbeat_noop_untracked (st : TrackerState) (i t : Int)
    (fs : FileSys)
    (h : keyTruthy st.activeDocKey = false ∨ st.segStart = none) :
    step st (.tick i t) = (st, []) ∧
    stepFull fs st (.tick i t) = (fs, st, []) := by
  have hstep : step st (.tick i t) = (st, []) := by
    rcases h with h | h
    · rcases hdk : st.activeDocKey with _ | k
      · rcases hss : st.segStart with _ | v <;>
          simp [step, notifyTick, hdk, hss]
      · have hkz : k = "" := by
          simpa [keyTruthy, hdk] using h
        rcases hss : st.segStart with _ | v <;>
          simp [step, notifyTick, hdk, hss, hkz]
    · rcases hdk : st.activeDocKey with _ | k <;>
        simp [step, notifyTick, hdk, h]
  exact ⟨hstep, by simp [stepFull, hstep, processSegments]⟩

theorem heartbeat_noop_untracked_witness :
    step initState (.tick 500 60) = (initState, []) ∧
    stepFull fsEmpty initState (.tick 500 60) = (fsEmpty, initState, []) :=
  heartbeat_noop_untracked initState 500 60 fsEmpty (Or.inl rfl)

/-- C10: a document-closed event ends the open segment only when the closed
document's derived key equals the tracked key; closing any other document
(or closing with nothing tracked) emits no segment and leaves the state
unchanged, and on a key match it behaves exactly as `_stop_current`. -/
theorem closed_only_matching (st : TrackerState) (d : Option Doc) (t : Int) :
    (∀ k, st.activeDocKey = some k → (docKeyAndNames d).1 ≠ k →
      step st (.closed d t) = (st, [])) ∧
    (st.activeDocKey = none → step st (.closed d t) = (st, [])) ∧
    ((step st (.closed d t)).2 ≠ [] →
      st.activeDocKey = some (docKeyAndNames d).1) ∧
    (∀ k, st.activeDocKey = some k → k ≠ "" → (docKeyAndNames d).1 = k →
      step st (.closed d t) = stopCurrent st t) := by
  refine ⟨?_, ?_, ?_, ?_⟩
  · intro k hk hne
    have hnc : ¬ (k ≠ "" ∧ (docKeyAndNames d).1 = k) := fun hc => hne hc.2
    simp only [step, notifyClosed, hk]
    rw [if_neg hnc]
  · intro hk
    simp [step, notifyClosed, hk]
  · intro hne
    rcases hdk : st.activeDocKey with _ | k
    · simp [step, notifyClosed, hdk] at hne
    · by_cases hc : k ≠ "" ∧ (docKeyAndNames d).1 = k
      · rw [hc.2]
      · simp only [step, notifyClosed, hdk] at hne
        rw [if_neg hc] at hne
        simp at hne
  · intro k hk hk0 hkc
    simp only [step, notifyClosed, hk]
    rw [if_pos ⟨hk0, hkc⟩]

theorem closed_only_matching_witness :
    step wStateA (.closed docA 7) = (wStateA, []) :=
  (closed_only_matching wStateA docA 7).1 "K" rfl (by decide)

/-- The spec's worked example: switch to `docA` at t=0, then a heartbeat at
t=150 reporting 130 idle seconds (threshold 120). -/
def exampleEvents : List Event := [.activated docA 0, .tick 130 150]

/-- C5 counterexample: the example emits the active segment `[0, 20)` and
opens the idle segment at t=20 (idle start `150 - 130 = 20`), not `[0, 30)`
with an idle segment at t=30 as the claim states. -/
theorem heartbeat_example_not_thirty :
    (runSteps initState exampleEvents).2 =
      [Segment.mk ("Unsaved", "docA") .active 0 20] ∧
    (runSteps initState exampleEvents).1.segStart = some 20 ∧
    (runSteps initState exampleEvents).2 ≠
      [Segment.mk ("Unsaved", "docA") .active 0 30] ∧
    (runSteps initState exampleEvents).1.segStart ≠ some 30 := by
  decide

/-- C5 amended: switch(docA) at t=0 followed by heartbeat(idle=130) at t=150
with threshold 120 emits an active segment for docA covering `[0, 20)` and
opens an idle segment starting at t=20. -/
theorem heartbeat_example_trace :
    (runSteps initState exampleEvents).2 =
      [Segment.mk ("Unsaved", "docA") .active 0 20] ∧
    (runSteps initState exampleEvents).1.currStatus = .idle ∧
    (runSteps initState exampleEvents).1.segStart = some 20 := by
  decide

/-- C4: a row is appended to the CSV log exactly when the segment's duration
in whole seconds reaches `MIN_SESSION_SECONDS` (given a writable log path);
a sub-threshold segment changes nothing on disk and is only reported to the
diagnostic stream. -/
theorem min_session_threshold (fs : FileSys) (names : String × String)
    (status : Status) (s e : Int) :
    (e - s < MIN_SESSION_SECONDS →
      writeSegmentRow fs names status s e =
        (fs, [Output.diag (droppedMsg names status (e - s))])) ∧
    (MIN_SESSION_SECONDS ≤ e - s → fs.writable sessionsPath = true →
      (writeSegmentRow fs names status s e).1.files sessionsPath =
        some ((match fs.files sessionsPath with
               | none => [SESSIONS_HEADER]
               | some f => f) ++ [rowOf names status s e (e - s)])) := by
  constructor
  · intro h
    simp [writeSegmentRow, h]
  · intro h hw
    rw [writeSegmentRow]
    rw [if_neg (not_lt.mpr h)]
    rcases hf : fs.files sessionsPath with _ | f <;>
      simp [ensureCsv, appendRow, setFile, hw, hf]

theorem min_session_threshold_witness :
    writeSegmentRow fsEmpty ("P", "D") .active 0 0 =
      (fsEmpty, [Output.diag (droppedMsg ("P", "D") .active (0 - 0))]) :=
  (min_session_threshold fsEmpty ("P", "D") .active 0 0).1 (by decide)

/-- C7 amended: a failed write is caught and reported to the diagnostic
stream — `_write_segment_row` always returns normally, with the segment
simply lost — and the log path is the single fixed location
`sessionsPath`: no other path is ever consulted or written, so there is no
fallback list and no retry at an alternate location. -/
theorem log_write_failure_contained (fs : FileSys) (names : String × String)
    (status : Status) (s e : Int) :
    (fs.writable sessionsPath = false → MIN_SESSION_SECONDS ≤ e - s →
      writeSegmentRow fs names status s e =
        (fs, [Output.diag csvCreateFailMsg,
              Output.diag (writeErrMsg "OSError")])) ∧
    (∀ q, q ≠ sessionsPath →
      (writeSegmentRow fs names status s e).1.files q = fs.files q) := by
  constructor
  · intro hw h
    rw [writeSegmentRow]
    rw [if_neg (not_lt.mpr h)]
    simp [ensureCsv, appendRow, hw]
  · intro q hq
    rw [writeSegmentRow]
    by_cases h : e - s < MIN_SESSION_SECONDS
    · rw [if_pos h]
    · rw [if_neg h]
      rcases hw : fs.writable sessionsPath with _ | _
      · simp [ensureCsv, appendRow, hw]
      · rcases hf : fs.files sessionsPath with _ | f <;>
          simp [ensureCsv, appendRow, setFile, hw, hf, hq]

def fsUnwritable : FileSys :=
  { writable := fun _ => false, files := fun _ => none }

theorem log_write_failure_contained_witness :
    writeSegmentRow fsUnwritable ("P", "D") .active 0 100 =
      (fsUnwritable, [Output.diag csvCreateFailMsg,
                      Output.diag (writeErrMsg "OSError")]) :=
  (log_write_failure_contained fsUnwritable ("P", "D") .active 0 100).1 rfl
    (by decide)

/-- A filesystem on which every path except the sessions path is writable. -/
def fsAltOnly : FileSys :=
  { writable := fun p => p ≠ sessionsPath, files := fun _ => none }

def altSessionsPath : String := "/tmp/sessions.csv"

/-- C7 counterexample: when the sessions path is unwritable but every
alternate location is writable, the write of a 100-second segment still
lands nowhere — not at the sessions path and not at any alternate — and
only two diagnostics are produced. The code never re-resolves or retries an
alternate path; there is no fallback list. -/
theorem log_path_no_fallback :
    fsAltOnly.writable altSessionsPath = true ∧
    fsAltOnly.writable sessionsPath = false ∧
    (writeSegmentRow fsAltOnly ("P", "D") .active 0 100).1.files
      altSessionsPath = none ∧
    (writeSegmentRow fsAltOnly ("P", "D") .active 0 100).1.files
      sessionsPath = none ∧
    (writeSegmentRow fsAltOnly ("P", "D") .active 0 100).2 =
      [Output.diag csvCreateFailMsg, Output.diag (writeErrMsg "OSError")] := by
  refine ⟨by decide, by decide, ?_, ?_, ?_⟩ <;>
    simp [writeSegmentRow, ensureCsv, appendRow, fsAltOnly,
      MIN_SESSION_SECONDS]

/-- The CSV file either does not exist yet or begins with the header row,
followed only by seven-field rows. -/
def HeaderedOK (fs : FileSys) : Prop :=
  fs.files sessionsPath = none ∨
  ∃ rows, fs.files sessionsPath = some (SESSIONS_HEADER :: rows) ∧
    ∀ r ∈ rows, r.length = 7

/-- C8: the header names exactly the seven fields `project_name`,
`document_name`, `status`, `start_time`, `end_time`, `duration_seconds`,
`duration_hms`; every written row consists of exactly those seven fields in
that order with both timestamps rendered by `fmtTime`; `fmtTime` produces
the `MM/DD/YYYY HH:MM` shape; and segment emission preserves the invariant
that the log file starts with the header row followed only by seven-field
rows. -/
theorem csv_row_format :
    SESSIONS_HEADER =
      ["project_name", "document_name", "status", "start_time", "end_time",
       "duration_seconds", "duration_hms"] ∧
    (∀ (names : String × String) (status : Status) (s e d : Int),
      rowOf names status s e d =
        [names.1, names.2, statusStr status, fmtTime s, fmtTime e,
         toString d, hms d] ∧ (rowOf names status s e d).length = 7) ∧
    (∀ t : Int, ∃ mo d y h mi, fmtTime t =
      pad2 mo ++ "/" ++ pad2 d ++ "/" ++ pad4 y ++ " " ++
        pad2 h ++ ":" ++ pad2 mi) ∧
    (∀ (fs : FileSys) (names : String × String) (status : Status)
      (s e : Int),
      HeaderedOK fs → HeaderedOK (writeSegmentRow fs names status s e).1) := by
  refine ⟨rfl, fun names status s e d => ⟨rfl, rfl⟩, ?_, ?_⟩
  · intro t
    exact ⟨_, _, _, _, _, rfl⟩
  · intro fs names status s e h
    simp only [HeaderedOK] at h ⊢
    rw [writeSegmentRow]
    by_cases hd : e - s < MIN_SESSION_SECONDS
    · rw [if_pos hd]
      exact h
    · rw [if_neg hd]
      rcases hw : fs.writable sessionsPath with _ | _
      · simpa [ensureCsv, appendRow, hw] using h
      · rcases hf : fs.files sessionsPath with _ | f
        · refine Or.inr ⟨[rowOf names status s e (e - s)], ?_, ?_⟩
          · simp [ensureCsv, appendRow, setFile, hw, hf]
          · intro r hr
            rcases List.mem_singleton.mp hr with rfl
            rfl
        · rcases h with h0 | ⟨rows, heq, hlen⟩
          · rw [hf] at h0
            cases h0
          · rw [hf] at heq
            obtain rfl : f = SESSIONS_HEADER :: rows := Option.some.inj heq
            refine Or.inr
              ⟨rows ++ [rowOf names status s e (e - s)], ?_, ?_⟩
            · simp [ensureCsv, appendRow, setFile, hw, hf]
            · intro r hr
              rcases List.mem_append.mp hr with h1 | h1
              · exact hlen r h1
              · rcases List.mem_singleton.mp h1 with rfl
                rfl

theorem csv_row_format_witness :
    HeaderedOK (writeSegmentRow fsEmpty ("P", "D") .active 0 100).1 ∧
    (rowOf ("P", "D") .active 0 100 100).length = 7 :=
  ⟨csv_row_format.2.2.2 fsEmpty ("P", "D") .active 0 100 (Or.inl rfl),
   (csv_row_format.2.1 ("P", "D") .active 0 100 100).2⟩

end FusionTrack
